import Mathlib

/-!
Shallow embedding of the core of backend/app.py of the
visual_product_matcher repository, and verification of the frozen claims
about it.  Pure fragments of the Python source (id resolution,
ranking/truncation of search results, per-record build accumulation, the
retry loop of the image fetcher, the startup index load, the publish of
the (df, embeddings, ids) globals) are translated into executable Lean
definitions; external collaborators (the CLIP feature extractor, the
network, the filesystem) are abstracted as oracle parameters.
Numeric values handled by numpy as float32 are modelled as rationals
(search scores) or reals (L2 norms); `np.argsort(-sims)` is modelled as
the stable descending sort, which breaks ties by ascending original
index.
-/

namespace VPM

instance {ε α : Type} [DecidableEq ε] [DecidableEq α] : DecidableEq (Except ε α)
  | .error a, .error b => decidable_of_iff (a = b) (by simp)
  | .error _, .ok _ => isFalse (by simp)
  | .ok _, .error _ => isFalse (by simp)
  | .ok a, .ok b => decidable_of_iff (a = b) (by simp)

/-- A product row of the in-memory table `df`: the columns the search
payload reads (`id`, a name column, `image_url`). -/
structure Row where
  id : String
  name : String
  image : String
deriving DecidableEq, Repr

/-- The payload built by `_row_to_payload` for one search hit: the
product fields together with the similarity score. -/
structure Payload where
  id : String
  name : String
  imageUrl : String
  score : ℚ
deriving DecidableEq, Repr

/-- The module-level mutable state of backend/app.py that search reads:
the globals `df`, `embeddings` (a matrix as a list of rows) and `ids`.
`none` models the Python value `None`. -/
structure AppState where
  df : Option (List Row)
  embeddings : Option (List (List ℚ))
  ids : List String
deriving DecidableEq, Repr

/-- Dot product, modelling `embeddings @ qvec` row by row. -/
def dot (u v : List ℚ) : ℚ := (List.zipWith (· * ·) u v).sum

/-- The ranking order used by search: index `i` ranks before `j` when its
score is strictly larger, or the scores are equal and `i ≤ j`.  This is
the order realised by the stable model of `np.argsort(-sims)`. -/
def rankRel (sims : List ℚ) (i j : Nat) : Prop :=
  sims.getD j 0 < sims.getD i 0 ∨ (sims.getD i 0 = sims.getD j 0 ∧ i ≤ j)

instance (sims : List ℚ) : DecidableRel (rankRel sims) := fun i j => by
  unfold rankRel; infer_instance

instance (sims : List ℚ) : IsTotal Nat (rankRel sims) where
  total i j := by
    rcases lt_trichotomy (sims.getD i 0) (sims.getD j 0) with h | h | h
    · exact Or.inr (Or.inl h)
    · rcases Nat.le_total i j with hij | hij
      · exact Or.inl (Or.inr ⟨h, hij⟩)
      · exact Or.inr (Or.inr ⟨h.symm, hij⟩)
    · exact Or.inl (Or.inl h)

instance (sims : List ℚ) : IsTrans Nat (rankRel sims) where
  trans i j k hij hjk := by
    rcases hij with h1 | ⟨e1, l1⟩
    · rcases hjk with h2 | ⟨e2, _⟩
      · exact Or.inl (h2.trans h1)
      · exact Or.inl (e2 ▸ h1)
    · rcases hjk with h2 | ⟨e2, l2⟩
      · exact Or.inl (e1 ▸ h2)
      · exact Or.inr ⟨e1.trans e2, l1.trans l2⟩

/-- Model of `order = np.argsort(-sims)`: the indices `0..N-1` sorted by
descending score, ties broken by ascending original index. -/
def argsortDesc (sims : List ℚ) : List Nat :=
  List.insertionSort (rankRel sims) (List.range sims.length)

/-- `_row_to_payload(row, score)` restricted to the fields the claims
mention. -/
def rowToPayload (r : Row) (score : ℚ) : Payload :=
  { id := r.id, name := r.name, imageUrl := r.image, score := score }

/-- The result-collection loop of `search` (app.py lines 442-453): walk
the ranked indices; a candidate below `min_similarity` is skipped by
`continue` (which also skips the truncation check); otherwise the id is
looked up in the table (first match), appended when found, and the loop
breaks as soon as `len(results) >= top_k`. -/
def searchLoop (sims : List ℚ) (idsL : List String) (dfL : List Row)
    (minSim : ℚ) (topK : ℤ) (order : List Nat) (acc : List Payload) :
    List Payload :=
  match order with
  | [] => acc
  | idx :: rest =>
      let score := sims.getD idx 0
      if score < minSim then
        searchLoop sims idsL dfL minSim topK rest acc
      else
        let acc' :=
          match dfL.find? (fun r => r.id = idsL.getD idx "") with
          | some r => acc ++ [rowToPayload r score]
          | none => acc
        if topK ≤ (acc'.length : ℤ) then acc'
        else searchLoop sims idsL dfL minSim topK rest acc'

/-- The two error exits of `search`: HTTP 400 "Index not built" and
HTTP 422 "min_similarity must be in [0,1]". -/
inductive SearchErr where
  | notReady
  | validation
deriving DecidableEq, Repr

/-- `search` (app.py lines 396-455) after the query image has been
embedded into `qvec`: the readiness check on the published state comes
first, then the range check on `min_similarity`, then scores, ranking and
the collection loop. -/
def search (st : AppState) (topK : ℤ) (minSim : ℚ) (qvec : List ℚ) :
    Except SearchErr (List Payload) :=
  match st.embeddings, st.df with
  | some emb, some dfL =>
      if emb.length = 0 then .error .notReady
      else if ¬ (0 ≤ minSim ∧ minSim ≤ 1) then .error .validation
      else
        let sims := emb.map (fun r => dot r qvec)
        .ok (searchLoop sims st.ids dfL minSim topK (argsortDesc sims) [])
  | _, _ => .error .notReady

/-- The filtered, resolved candidates in ranked order: for each index in
the ranked list, keep it when its score clears `min_similarity` and its
id resolves in the table, producing the payload. -/
def selectedPayloads (sims : List ℚ) (idsL : List String) (dfL : List Row)
    (minSim : ℚ) (order : List Nat) : List Payload :=
  match order with
  | [] => []
  | idx :: rest =>
      let score := sims.getD idx 0
      if score < minSim then selectedPayloads sims idsL dfL minSim rest
      else
        match dfL.find? (fun r => r.id = idsL.getD idx "") with
        | some r => rowToPayload r score :: selectedPayloads sims idsL dfL minSim rest
        | none => selectedPayloads sims idsL dfL minSim rest

/-! ### Dataset normalizer (`_load_csv_filtered`, app.py lines 188-239)

Python strings are modelled as `List Char` (the built-in `String`
functions do not evaluate inside the kernel); `str.strip`, `str.lower`
and `pathlib.Path(...).stem` are given executable models below. -/

/-- A Python string. -/
abbrev Str := List Char

/-- `str.strip()`: remove leading and trailing whitespace. -/
def pyStrip (s : Str) : Str :=
  ((s.dropWhile Char.isWhitespace).reverse.dropWhile Char.isWhitespace).reverse

/-- Lower-case an ASCII letter, as `str.lower` does on the characters the
null-token comparison cares about. -/
def lowerChar (c : Char) : Char :=
  if 'A' ≤ c ∧ c ≤ 'Z' then Char.ofNat (c.toNat + 32) else c

/-- `str.lower()`. -/
def pyLower (s : Str) : Str := s.map lowerChar

/-- Split a string at every '/', as `pathlib` does to find the final path
component of a POSIX path or URL. -/
def splitSlash (s : Str) : List Str :=
  match s with
  | [] => [[]]
  | c :: rest =>
      let r := splitSlash rest
      if c = '/' then [] :: r
      else (c :: r.headD []) :: r.tail

/-- Index of the last occurrence of a character. -/
def lastIdxOf (c : Char) (cs : Str) : Option Nat :=
  ((List.range cs.length).filter (fun i => cs.getD i ' ' = c)).getLast?

/-- `pathlib.Path(s).stem`: the final path component without its suffix;
the suffix starts at the last dot only when that dot is neither the first
nor the last character of the component. -/
def fileStem (s : Str) : Str :=
  let name := (splitSlash s).getLastD s
  match lastIdxOf '.' name with
  | some i => if 0 < i ∧ i + 1 < name.length then name.take i else name
  | none => name

/-- The null-likeness test of app.py line 222: strip, lower, and compare
against "", "nan", "none", "null". -/
def nullLike (s : Str) : Bool :=
  let t := pyLower (pyStrip s)
  t = "".data || t = "nan".data || t = "none".data || t = "null".data

/-- A raw catalog row restricted to the columns the id cascade reads: the
detected image column, and the `id` / `sku` cells (meaningful only when
the respective column exists in the frame). -/
structure RawRow where
  image : Str
  idCell : Str
  skuCell : Str
deriving DecidableEq, Repr

/-- A raw catalog: its rows plus which of the `id` / `sku` columns
exist. -/
structure Frame where
  rows : List RawRow
  hasId : Bool
  hasSku : Bool
deriving DecidableEq, Repr

/-- A normalized product record: resolved id and stripped image source. -/
structure Product where
  id : Str
  image : Str
deriving DecidableEq, Repr

/-- Step 1 of `_load_csv_filtered` (lines 206-209): strip the image
column and drop rows with an empty image. -/
def surviving (f : Frame) : List RawRow :=
  (f.rows.map (fun r => { r with image := pyStrip r.image })).filter
    (fun r => r.image ≠ [])

/-- `_load_csv_filtered` (lines 188-239) after image-column detection:
strip/filter the image column, resolve ids by the code's cascade, then
strip ids and drop rows with an empty id or image.  The cascade: if the
`id` column exists, use it unless all its values are null-like (then
stems), filling individually-null cells from stems; if the `id` column
does not exist, use `sku` when it exists with some non-empty value, else
stems. -/
def loadCsvFiltered (f : Frame) : List Product :=
  let rows1 := surviving f
  let withIds : List Product :=
    if f.hasId then
      if rows1.all (fun r => nullLike r.idCell) then
        rows1.map (fun r => { id := fileStem r.image, image := r.image })
      else
        rows1.map (fun r =>
          if nullLike r.idCell then { id := fileStem r.image, image := r.image }
          else { id := pyStrip r.idCell, image := r.image })
    else
      if f.hasSku && rows1.any (fun r => pyStrip r.skuCell ≠ []) then
        rows1.map (fun r => { id := pyStrip r.skuCell, image := r.image })
      else
        rows1.map (fun r => { id := fileStem r.image, image := r.image })
  (withIds.map (fun p => { p with id := pyStrip p.id })).filter
    (fun p => p.id ≠ [] && p.image ≠ [])

/-! ### Index builder and index store
(`_img_to_vec`, `_build_index_from_csv`, `on_startup`; app.py lines
274-279, 300-334, 339-369)

Float vectors are modelled as lists of reals.  Image acquisition
(`_open_image_from_url_or_path`) plus `_img_to_vec` for one record are
abstracted as an oracle `Product → Option (List ℝ)`: `some v` is the
resulting vector, `none` is an exception raised at any of those steps;
`imgToVec` below models the normalization half of `_img_to_vec`, so the
oracle of interest is `fun r => (clipFeatures r).map imgToVec`. -/

/-- The epsilon of `_img_to_vec` line 278. -/
noncomputable def eps : ℝ := 1 / 10 ^ 10

/-- `np.linalg.norm v`. -/
noncomputable def l2norm (v : List ℝ) : ℝ :=
  Real.sqrt (v.map (fun x => x ^ 2)).sum

/-- The normalization of `_img_to_vec` (line 278):
`v / (np.linalg.norm(v) + 1e-10)`. -/
noncomputable def imgToVec (raw : List ℝ) : List ℝ :=
  raw.map (fun x => x / (l2norm raw + eps))

/-- The index-store state: the two persisted artifacts
(`embeddings.npy`, `ids.json`; `none` = file absent or unparseable) and
the module globals `df`, `embeddings`, `ids`. -/
structure Store where
  persistedMatrix : Option (List (List ℝ))
  persistedIds : Option (List Str)
  df : Option (List Product)
  embeddings : Option (List (List ℝ))
  ids : List Str

/-- The summary dict returned by `_build_index_from_csv` (line 334):
`count` = len(ids), `skipped`. -/
structure BuildSummary where
  count : Nat
  skipped : Nat
deriving DecidableEq, Repr

/-- The two failure exits of a build: `_load_csv_filtered` raised
(missing file or no image column), or zero vectors were produced
(RuntimeError, line 323). -/
inductive BuildErr where
  | csvLoad
  | emptyIndex
deriving DecidableEq, Repr

/-- The per-record loop of `_build_index_from_csv` (lines 312-320): for
each record try acquisition + extraction + normalization; on success
append the vector and the id, on any exception count a skip and continue
with the next record. -/
def buildPass (oracle : Product → Option (List ℝ)) :
    List Product → List (List ℝ) × List Str × Nat
  | [] => ([], [], 0)
  | r :: rest =>
      let acc := buildPass oracle rest
      match oracle r with
      | some v => (v :: acc.1, r.id :: acc.2.1, acc.2.2)
      | none => (acc.1, acc.2.1, acc.2.2 + 1)

/-- The publish sequence of a successful build (lines 326-331), one store
state per executed statement: `np.save`, `ids.json` write, then the three
global assignments `df = ...`, `embeddings = ...`, `ids = ...`.  The
first element is the state before any write; the last is the fully
published state. -/
def publishTrace (st : Store) (m : List (List ℝ)) (idsNew : List Str)
    (dfNew : List Product) : List Store :=
  let s1 := { st with persistedMatrix := some m }
  let s2 := { s1 with persistedIds := some idsNew }
  let s3 := { s2 with df := some dfNew }
  let s4 := { s3 with embeddings := some m }
  let s5 := { s4 with ids := idsNew }
  [st, s1, s2, s3, s4, s5]

/-- `_build_index_from_csv` (lines 300-334): load and normalize the
catalog (`none` models an exception in `_load_csv_filtered`), run the
per-record pass, fail when no vector was produced, otherwise persist and
publish the new triple and return the summary.  The resulting store is
the last state of the publish sequence. -/
def buildIndexFromCsv (csv : Option Frame)
    (oracle : Product → Option (List ℝ)) (st : Store) :
    Except BuildErr BuildSummary × Store :=
  match csv with
  | none => (.error .csvLoad, st)
  | some f =>
      let dframe := loadCsvFiltered f
      let acc := buildPass oracle dframe
      if acc.1.isEmpty then (.error .emptyIndex, st)
      else
        (.ok ⟨acc.2.1.length, acc.2.2⟩,
         (publishTrace st acc.1 acc.2.1 dframe).getLastD st)

/-- The index-loading branch of `on_startup` (lines 351-362): if both
artifact files exist and parse (`some`), assign the globals `embeddings`
and `ids` from them — with no validation of any kind — and return; on a
read/parse exception (`none`) fall through (the caller then rebuilds). -/
def loadIndex (artifacts : Option (List (List ℝ) × List Str)) (st : Store) :
    Option Store :=
  match artifacts with
  | none => none
  | some (m, idsL) => some { st with embeddings := some m, ids := idsL }

/-- A store with nothing published, as at process start. -/
def emptyStore : Store := ⟨none, none, none, none, []⟩

/-- A concrete fully-published store used to exhibit the publish
interleaving. -/
def oldStoreEx : Store :=
  ⟨some [[1]], some [['a']], some [⟨['a'], ['u']⟩], some [[1]], [['a']]⟩

/-! ### Remote image fetch (`_fetch_image_bytes_with_headers`, app.py
lines 86-174)

The network is abstracted as an oracle mapping (attempt number, header
profile index) to the outcome of `session.get` + `raise_for_status` +
body streaming: `.ok body` is a success status with the streamed bytes,
`.error e` an exception.  The header contents themselves (including the
Referer injection of lines 126-132) do not affect control flow and are
not modelled; profiles are identified by their index 0, 1, 2 in
`header_candidates`. -/

/-- Outcome of one HTTP request: success status with streamed body
bytes, or an exception message. -/
abbrev FetchResp := Except Str (List Nat)

/-- The empty-body check of lines 144-145: a success whose body is empty
becomes the "Downloaded content is empty" exception, caught by the same
handler as a failed request. -/
def tryProfile (resp : FetchResp) : FetchResp :=
  match resp with
  | .error e => .error e
  | .ok body =>
      if body.isEmpty then .error "Downloaded content is empty".data
      else .ok body

/-- The indices of the three `header_candidates` (lines 99-116). -/
def headerProfiles : List Nat := [0, 1, 2]

/-- `max_attempts` (line 122). -/
def maxAttempts : Nat := 3

/-- The base backoff delay of line 152 (0.5 seconds). -/
def baseDelay : ℚ := 1 / 2

/-- The inner profile loop of one attempt (lines 124-149): try each
header profile in order; the first success with non-empty body returns
immediately; every failure replaces `last_exc`.  Returns the winning body
(if any), the final `last_exc`, and the (attempt, profile) pairs tried,
in order. -/
def runProfiles (oracle : Nat → Nat → FetchResp) (a : Nat) :
    List Nat → Option Str → Option (List Nat) × Option Str × List (Nat × Nat)
  | [], le => (none, le, [])
  | p :: ps, le =>
      match tryProfile (oracle a p) with
      | .ok body => (some body, le, [(a, p)])
      | .error e =>
          let acc := runProfiles oracle a ps (some e)
          (acc.1, acc.2.1, (a, p) :: acc.2.2)

/-- The outer attempt loop (lines 123-154): after an attempt in which
every profile failed, sleep `0.5 * 2 ^ (attempt - 1)` seconds and move to
the next attempt.  Returns the winning body (if any), the final
`last_exc`, the tried pairs, and the sleeps performed, in order. -/
def runAttempts (oracle : Nat → Nat → FetchResp) :
    List Nat → Option Str →
      Option (List Nat) × Option Str × List (Nat × Nat) × List ℚ
  | [], le => (none, le, [], [])
  | a :: rest, le =>
      let att := runProfiles oracle a headerProfiles le
      match att.1 with
      | some body => (some body, att.2.1, att.2.2, [])
      | none =>
          let acc := runAttempts oracle rest att.2.1
          (acc.1, acc.2.1, att.2.2 ++ acc.2.2.1,
           (baseDelay * 2 ^ (a - 1)) :: acc.2.2.2)

/-- The observable outcome of a fetch: result, tried (attempt, profile)
pairs, and backoff sleeps. -/
structure FetchOutcome where
  result : FetchResp
  tried : List (Nat × Nat)
  sleeps : List ℚ
deriving DecidableEq, Repr

/-- `_fetch_image_bytes_with_headers` (lines 86-174): the attempt loop
over attempts 1..max_attempts, then the urllib fallback (lines 157-169,
one final independent request with its own empty-body check, the
`fallback` parameter here); if the fallback also fails, the code sets
`last_exc = last_exc or e` and raises `last_exc` (lines 169-173), i.e.
the last exception of the profile loop when there was one, else the
fallback's. -/
def fetchImageBytes (oracle : Nat → Nat → FetchResp) (fallback : FetchResp) :
    FetchOutcome :=
  let loop := runAttempts oracle (List.range' 1 maxAttempts) none
  match loop.1 with
  | some body => ⟨.ok body, loop.2.2.1, loop.2.2.2⟩
  | none =>
      match tryProfile fallback with
      | .ok body => ⟨.ok body, loop.2.2.1, loop.2.2.2⟩
      | .error e =>
          ⟨.error (match loop.2.1 with | some x => x | none => e),
           loop.2.2.1, loop.2.2.2⟩

/-- The collection loop of `search` returns, for a positive `top_k` and an
accumulator still below it, the accumulator followed by the first
`top_k - len(acc)` filtered, resolved candidates in ranked order. -/
theorem searchLoop_eq_take (sims : List ℚ) (idsL : List String) (dfL : List Row)
    (minSim : ℚ) (topK : ℤ) :
    ∀ (order : List Nat) (acc : List Payload), (acc.length : ℤ) < topK →
      searchLoop sims idsL dfL minSim topK order acc
        = acc ++ (selectedPayloads sims idsL dfL minSim order).take
            (topK - acc.length).toNat := by
  intro order
  induction order with
  | nil => intro acc _; simp [searchLoop, selectedPayloads]
  | cons idx rest ih =>
    intro acc hacc
    rw [searchLoop, selectedPayloads]
    by_cases hs : sims.getD idx 0 < minSim
    · simp only [hs, if_true]
      exact ih acc hacc
    · simp only [hs, if_false]
      cases hfind : dfL.find? (fun r => r.id = idsL.getD idx "") with
      | none =>
        have : ¬ (topK ≤ (acc.length : ℤ)) := by omega
        simp only [this, if_false]
        exact ih acc hacc
      | some r =>
        by_cases hfull : topK ≤ ((acc ++ [rowToPayload r (sims.getD idx 0)]).length : ℤ)
        · simp only [hfull, if_true]
          have hlen : (topK - acc.length).toNat = 1 := by
            simp only [List.length_append, List.length_cons, List.length_nil] at hfull
            omega
          simp [hlen]
        · simp only [hfull, if_false]
          rw [ih _ (by simpa using hfull)]
          have hlen : (topK - acc.length).toNat
              = ((topK - ((acc.length : ℤ) + 1)).toNat) + 1 := by
            simp only [List.length_append, List.length_cons, List.length_nil] at hfull
            omega
          simp [hlen, List.take_succ_cons, List.append_assoc]

/-- `selectedPayloads` as a `filterMap` over the ranked indices. -/
theorem selectedPayloads_eq_filterMap (sims : List ℚ) (idsL : List String)
    (dfL : List Row) (minSim : ℚ) (order : List Nat) :
    selectedPayloads sims idsL dfL minSim order
      = order.filterMap (fun idx =>
          if sims.getD idx 0 < minSim then none
          else (dfL.find? (fun r => r.id = idsL.getD idx "")).map
            (fun r => rowToPayload r (sims.getD idx 0))) := by
  induction order with
  | nil => simp [selectedPayloads]
  | cons idx rest ih =>
    rw [selectedPayloads, List.filterMap_cons]
    by_cases hs : sims.getD idx 0 < minSim
    · simp only [hs, if_true]
      exact ih
    · simp only [hs, if_false]
      cases hfind : dfL.find? (fun r => r.id = idsL.getD idx "") with
      | none => simpa using ih
      | some r => simpa using ih

/-- The ranked index list is sorted by the ranking order. -/
theorem argsortDesc_sorted (sims : List ℚ) :
    (argsortDesc sims).Pairwise (rankRel sims) :=
  List.sorted_insertionSort (rankRel sims) (List.range sims.length)

/-- The ranked index list is a permutation of all `N` candidate indices. -/
theorem argsortDesc_perm (sims : List ℚ) :
    List.Perm (argsortDesc sims) (List.range sims.length) :=
  List.perm_insertionSort (rankRel sims) (List.range sims.length)

/-- Payloads selected along a ranked index list have non-increasing
scores. -/
theorem selectedPayloads_pairwise (sims : List ℚ) (idsL : List String)
    (dfL : List Row) (minSim : ℚ) (order : List Nat)
    (hord : order.Pairwise (rankRel sims)) :
    (selectedPayloads sims idsL dfL minSim order).Pairwise
      (fun p q => q.score ≤ p.score) := by
  rw [selectedPayloads_eq_filterMap]
  refine List.Pairwise.filterMap _ ?_ hord
  intro i j hij p hp q hq
  rw [Option.mem_def] at hp hq
  split at hp
  · exact absurd hp (by simp)
  · split at hq
    · exact absurd hq (by simp)
    · rcases Option.map_eq_some'.mp hp with ⟨r, _, hr⟩
      rcases Option.map_eq_some'.mp hq with ⟨r', _, hr'⟩
      subst hr hr'
      simp only [rowToPayload]
      rcases hij with h | ⟨h, _⟩
      · exact le_of_lt h
      · exact le_of_eq h.symm

/-- C1: for every published index and query vector, `search` returns the
surviving (threshold-clearing, table-resolved) candidates in the order
given by ranking all N candidates by descending similarity score with
ties broken by ascending original build index, truncated to `top_k`; the
returned list has non-increasing scores, and contains exactly `top_k`
items when at least `top_k` candidates survive (fewer only when the
filter or the lookup removes some).  `np.argsort` is modelled as the
stable descending sort. -/
theorem claim_C1_search_ranking
    (emb : List (List ℚ)) (dfL : List Row) (idsL : List String)
    (topK : ℤ) (minSim : ℚ) (qvec : List ℚ)
    (hne : emb ≠ []) (h0 : 0 ≤ minSim) (h1 : minSim ≤ 1) (htk : 1 ≤ topK) :
    search ⟨some dfL, some emb, idsL⟩ topK minSim qvec
        = .ok ((selectedPayloads (emb.map (fun r => dot r qvec)) idsL dfL minSim
            (argsortDesc (emb.map (fun r => dot r qvec)))).take topK.toNat)
    ∧ (argsortDesc (emb.map (fun r => dot r qvec))).Pairwise
        (rankRel (emb.map (fun r => dot r qvec)))
    ∧ List.Perm (argsortDesc (emb.map (fun r => dot r qvec)))
        (List.range emb.length)
    ∧ ((selectedPayloads (emb.map (fun r => dot r qvec)) idsL dfL minSim
          (argsortDesc (emb.map (fun r => dot r qvec)))).take topK.toNat).Pairwise
        (fun p q => q.score ≤ p.score)
    ∧ ((selectedPayloads (emb.map (fun r => dot r qvec)) idsL dfL minSim
          (argsortDesc (emb.map (fun r => dot r qvec)))).take topK.toNat).length
        = min topK.toNat
            (selectedPayloads (emb.map (fun r => dot r qvec)) idsL dfL minSim
              (argsortDesc (emb.map (fun r => dot r qvec)))).length := by
  have hlen0 : emb.length ≠ 0 := fun h => hne (List.length_eq_zero.mp h)
  have hval : ¬ ¬ (0 ≤ minSim ∧ minSim ≤ 1) := not_not_intro ⟨h0, h1⟩
  refine ⟨?_, argsortDesc_sorted _, ?_, ?_, ?_⟩
  · show (if emb.length = 0 then Except.error SearchErr.notReady
      else if ¬ (0 ≤ minSim ∧ minSim ≤ 1) then Except.error SearchErr.validation
      else _) = _
    rw [if_neg hlen0, if_neg hval]
    dsimp only
    rw [searchLoop_eq_take _ _ _ _ _ _ [] (by simpa using htk)]
    simp
  · have := argsortDesc_perm (emb.map (fun r => dot r qvec))
    simpa using this
  · exact (selectedPayloads_pairwise _ _ _ _ _ (argsortDesc_sorted _)).sublist
      (List.take_sublist _ _)
  · exact List.length_take _ _

/-- Witness for C1: an index of three unit rows with ids a, b, c where b
is absent from the table; the zero query vector scores all rows equally,
the tie-break ranks them 0, 1, 2, index 1 is dropped by the table lookup,
and top_k = 2 returns exactly the payloads of rows 0 and 2. -/
theorem claim_C1_search_ranking_witness :
    search { df := some [⟨"a", "A", "ua"⟩, ⟨"c", "C", "uc"⟩],
             embeddings := some [[1], [1], [1]], ids := ["a", "b", "c"] }
        2 0 []
      = .ok [⟨"a", "A", "ua", 0⟩, ⟨"c", "C", "uc", 0⟩] := by
  have h := claim_C1_search_ranking [[1], [1], [1]]
    [⟨"a", "A", "ua"⟩, ⟨"c", "C", "uc"⟩] ["a", "b", "c"] 2 0 []
    (by decide) (by decide) (by decide) (by decide)
  exact h.1.trans (by decide)

/-- With a non-positive `top_k`, the collection loop starting from the
empty accumulator stops at the first candidate clearing the similarity
threshold, so it produces at most one item. -/
theorem searchLoop_length_le_one (sims : List ℚ) (idsL : List String)
    (dfL : List Row) (minSim : ℚ) (topK : ℤ) (htk : topK ≤ 0) :
    ∀ order : List Nat,
      (searchLoop sims idsL dfL minSim topK order []).length ≤ 1 := by
  intro order
  induction order with
  | nil => simp [searchLoop]
  | cons idx rest ih =>
    rw [searchLoop]
    by_cases hs : sims.getD idx 0 < minSim
    · simp only [hs, if_true]
      exact ih
    · simp only [hs, if_false]
      cases hfind : dfL.find? (fun r => r.id = idsL.getD idx "") with
      | none =>
        split
        · simp
        · exact ih
      | some r =>
        split
        · simp
        · next hc => exact absurd (htk.trans (Int.natCast_nonneg _)) hc

/-- C10: `search` performs no validation of `top_k`: a call with
`top_k ≤ 0` that passes the readiness and `min_similarity` checks is
accepted (returns an ok result), and the returned items list has length
at most 1, because the truncation check `len(results) >= top_k` fires
right after the first candidate that clears the similarity threshold. -/
theorem claim_C10_topk_not_validated
    (emb : List (List ℚ)) (dfL : List Row) (idsL : List String)
    (topK : ℤ) (minSim : ℚ) (qvec : List ℚ)
    (hne : emb ≠ []) (h0 : 0 ≤ minSim) (h1 : minSim ≤ 1) (htk : topK ≤ 0) :
    search ⟨some dfL, some emb, idsL⟩ topK minSim qvec
        = .ok (searchLoop (emb.map (fun r => dot r qvec)) idsL dfL minSim topK
            (argsortDesc (emb.map (fun r => dot r qvec))) [])
    ∧ (searchLoop (emb.map (fun r => dot r qvec)) idsL dfL minSim topK
        (argsortDesc (emb.map (fun r => dot r qvec))) []).length ≤ 1 := by
  have hlen0 : emb.length ≠ 0 := fun h => hne (List.length_eq_zero.mp h)
  have hval : ¬ ¬ (0 ≤ minSim ∧ minSim ≤ 1) := not_not_intro ⟨h0, h1⟩
  constructor
  · show (if emb.length = 0 then Except.error SearchErr.notReady
      else if ¬ (0 ≤ minSim ∧ minSim ≤ 1) then Except.error SearchErr.validation
      else _) = _
    rw [if_neg hlen0, if_neg hval]
  · exact searchLoop_length_le_one _ _ _ _ _ htk _

/-- Witness for C10: `top_k = 0` with a two-row index is accepted and
returns a single item. -/
theorem claim_C10_topk_not_validated_witness :
    search { df := some [⟨"a", "A", "ua"⟩, ⟨"b", "B", "ub"⟩],
             embeddings := some [[1], [1]], ids := ["a", "b"] } 0 0 []
      = .ok [⟨"a", "A", "ua", 0⟩] := by
  have h := claim_C10_topk_not_validated [[1], [1]]
    [⟨"a", "A", "ua"⟩, ⟨"b", "B", "ub"⟩] ["a", "b"] 0 0 []
    (by decide) (by decide) (by decide) (by decide)
  exact h.1.trans (by decide)

/-- Counterexample for C6 as stated: with no published index and
`min_similarity = 2 ∉ [0,1]`, `search` fails with the not-ready error,
not the validation error, refuting "fails with ValidationError exactly
when min_similarity lies outside [0,1]" (the readiness check runs
first). -/
theorem claim_C6_counterexample :
    ¬ ((1:ℚ) ≤ 2 → False)
    ∧ search { df := some [], embeddings := some [], ids := [] } 12 2 []
        = .error .notReady
    ∧ search { df := some [], embeddings := some [], ids := [] } 12 2 []
        ≠ .error .validation := by
  refine ⟨by norm_num, by decide, by decide⟩

/-- C6 amended: the readiness check precedes validation.  `search` fails
with NotReady exactly when no matrix or table is published or the
published matrix is empty; it fails with Validation exactly when the
index is ready and `min_similarity` is outside [0,1]; on a ready index
with valid `min_similarity` it returns a non-error result (zero matches
is the non-error result with an empty items list). -/
theorem claim_C6_amended_validation
    (st : AppState) (topK : ℤ) (minSim : ℚ) (qvec : List ℚ) :
    (search st topK minSim qvec = .error .notReady
      ↔ st.embeddings = none ∨ st.df = none
        ∨ ∃ emb, st.embeddings = some emb ∧ emb.length = 0)
    ∧ (search st topK minSim qvec = .error .validation
      ↔ (∃ emb dfL, st.embeddings = some emb ∧ st.df = some dfL
            ∧ emb.length ≠ 0)
        ∧ ¬ (0 ≤ minSim ∧ minSim ≤ 1))
    ∧ ((∃ emb dfL, st.embeddings = some emb ∧ st.df = some dfL
          ∧ emb.length ≠ 0) ∧ (0 ≤ minSim ∧ minSim ≤ 1)
        → ∃ items, search st topK minSim qvec = .ok items) := by
  obtain ⟨odf, oemb, idsL⟩ := st
  cases oemb with
  | none => cases odf <;> simp [search]
  | some emb =>
    cases odf with
    | none => simp [search]
    | some dfL =>
      by_cases hlen : emb.length = 0
      · obtain rfl : emb = [] := List.length_eq_zero.mp hlen
        simp [search]
      · have hne : emb ≠ [] := fun h => hlen (by simp [h])
        by_cases hv : 0 ≤ minSim ∧ minSim ≤ 1
        · simp [search, hlen, hv, hne]
        · simp [search, hlen, hv, hne]

/-- Witness for C6 amended: an empty published matrix yields the
not-ready error even with an out-of-range min_similarity, and a ready
index with min_similarity 2 yields the validation error. -/
theorem claim_C6_amended_validation_witness :
    search { df := some [], embeddings := some [], ids := [] } 12 2 []
        = .error .notReady
    ∧ search { df := some [⟨"a", "A", "ua"⟩], embeddings := some [[1]],
               ids := ["a"] } 12 2 []
        = .error .validation := by
  constructor
  · exact (claim_C6_amended_validation
      { df := some [], embeddings := some [], ids := [] } 12 2 []).1.mpr
      (Or.inr (Or.inr ⟨[], rfl, rfl⟩))
  · exact (claim_C6_amended_validation
      { df := some [⟨"a", "A", "ua"⟩], embeddings := some [[1]],
        ids := ["a"] } 12 2 []).2.1.mpr
      ⟨⟨[[1]], [⟨"a", "A", "ua"⟩], rfl, rfl, by decide⟩, by decide⟩

/-- Counterexample for C3 as stated: a catalog whose `id` column exists
but is entirely null-like and whose `sku` column holds "S1" resolves the
id to the filename stem "a", not to the sku — the sku fallback in the
code is reachable only when the `id` column is absent, not merely
all-null. -/
theorem claim_C3_counterexample :
    loadCsvFiltered ⟨[⟨"imgs/a.jpg".data, "".data, "S1".data⟩], true, true⟩
        = [⟨"a".data, "imgs/a.jpg".data⟩]
    ∧ "a".data ≠ "S1".data
    ∧ nullLike "".data = true
    ∧ pyStrip "S1".data ≠ [] := by decide

/-- C3 amended: the id cascade, evaluated once per dataset, is: (a) if an
`id` column exists and not all of its surviving values are null-like, use
it, filling each individually-null cell from the filename stem of the
row's image source; (b) if an `id` column exists but every surviving
value is null-like, every id is the filename stem of the row's image
source (the `sku` column is ignored); (c) if no `id` column exists and a
`sku` column exists with some non-empty value, every id is taken from
`sku`; (d) otherwise every id is the filename stem.  Surviving output
rows additionally have non-empty id and image. -/
theorem claim_C3_amended_id_cascade (f : Frame) (p : Product)
    (hp : p ∈ loadCsvFiltered f) :
    p.id ≠ [] ∧ p.image ≠ []
    ∧ (f.hasId = true → (surviving f).all (fun r => nullLike r.idCell) = false →
        ∃ r ∈ surviving f, p.image = r.image ∧
          p.id = pyStrip (if nullLike r.idCell then fileStem r.image
            else pyStrip r.idCell))
    ∧ (f.hasId = true → (surviving f).all (fun r => nullLike r.idCell) = true →
        p.id = pyStrip (fileStem p.image))
    ∧ (f.hasId = false →
        (f.hasSku && (surviving f).any (fun r => pyStrip r.skuCell ≠ [])) = true →
        ∃ r ∈ surviving f, p.image = r.image ∧ p.id = pyStrip (pyStrip r.skuCell))
    ∧ (f.hasId = false →
        (f.hasSku && (surviving f).any (fun r => pyStrip r.skuCell ≠ [])) = false →
        p.id = pyStrip (fileStem p.image)) := by
  simp only [loadCsvFiltered] at hp
  rw [List.mem_filter] at hp
  obtain ⟨hmem, hpred⟩ := hp
  simp only [Bool.and_eq_true, decide_eq_true_eq] at hpred
  rw [List.mem_map] at hmem
  obtain ⟨q, hq, rfl⟩ := hmem
  refine ⟨hpred.1, hpred.2, ?_, ?_, ?_, ?_⟩
  · intro h1 h2
    simp only [h1, h2, if_true, Bool.false_eq_true, if_false] at hq
    rw [List.mem_map] at hq
    obtain ⟨r, hr, rfl⟩ := hq
    refine ⟨r, hr, ?_⟩
    by_cases hn : nullLike r.idCell
    · simp [hn]
    · simp [hn]
  · intro h1 h2
    simp only [h1, h2, if_true] at hq
    rw [List.mem_map] at hq
    obtain ⟨r, hr, rfl⟩ := hq
    rfl
  · intro h1 h2
    simp only [h1, h2, Bool.false_eq_true, if_false, if_true] at hq
    rw [List.mem_map] at hq
    obtain ⟨r, hr, rfl⟩ := hq
    exact ⟨r, hr, rfl, rfl⟩
  · intro h1 h2
    simp only [h1, h2, Bool.false_eq_true, if_false] at hq
    rw [List.mem_map] at hq
    obtain ⟨r, hr, rfl⟩ := hq
    rfl

/-- Witness for C3 amended: with no `id` column and sku "S1", the single
surviving row resolves id = "S1" (case (c) of the cascade). -/
theorem claim_C3_amended_id_cascade_witness :
    (⟨"S1".data, "x.png".data⟩ : Product)
        ∈ loadCsvFiltered ⟨[⟨"x.png".data, "".data, "S1".data⟩], false, true⟩
    ∧ ("S1".data : Str) ≠ []
    ∧ ∃ r ∈ surviving ⟨[⟨"x.png".data, "".data, "S1".data⟩], false, true⟩,
        ("x.png".data : Str) = r.image
        ∧ ("S1".data : Str) = pyStrip (pyStrip r.skuCell) := by
  have h := claim_C3_amended_id_cascade
    ⟨[⟨"x.png".data, "".data, "S1".data⟩], false, true⟩
    ⟨"S1".data, "x.png".data⟩ (by decide)
  exact ⟨by decide, h.1, h.2.2.2.2.1 rfl (by decide)⟩

/-- The per-record pass keeps, in iteration order, exactly the vectors
and ids of the records whose processing succeeded, and counts one skip
per failing record. -/
theorem buildPass_spec (oracle : Product → Option (List ℝ)) :
    ∀ records : List Product,
      (buildPass oracle records).1 = records.filterMap oracle
      ∧ (buildPass oracle records).2.1
          = (records.filter (fun r => (oracle r).isSome)).map (fun r => r.id)
      ∧ (buildPass oracle records).2.2
          = (records.filter (fun r => (oracle r).isNone)).length
      ∧ (buildPass oracle records).1.length = (buildPass oracle records).2.1.length := by
  intro records
  induction records with
  | nil => simp [buildPass]
  | cons r rest ih =>
    rw [buildPass]
    cases h : oracle r with
    | some v =>
      simp only [h, List.filterMap_cons, List.filter_cons, Option.isSome_some,
        Option.isNone_some, if_true, Bool.false_eq_true, if_false, List.map_cons,
        List.length_cons]
      exact ⟨by rw [ih.1], by rw [ih.2.1], by rw [ih.2.2.1], by rw [ih.2.2.2]⟩
    | none =>
      simp only [h, List.filterMap_cons, List.filter_cons, Option.isSome_none,
        Option.isNone_none, if_true, Bool.false_eq_true, if_false, List.length_cons]
      exact ⟨ih.1, ih.2.1, by rw [ih.2.2.1], ih.2.2.2⟩

/-- Successful and failed records partition the catalog. -/
theorem length_filter_isSome_add_isNone (oracle : Product → Option (List ℝ)) :
    ∀ l : List Product,
      (l.filter (fun r => (oracle r).isSome)).length
        + (l.filter (fun r => (oracle r).isNone)).length = l.length := by
  intro l
  induction l with
  | nil => rfl
  | cons r rest ih =>
    cases h : oracle r <;> simp [List.filter_cons, h] <;> omega

/-- C5: the build catches a failure of any record's acquisition /
extraction / normalization step, counts it as a skip and continues: it
fails (with the empty-index error) exactly when every record of the
normalized catalog failed, and otherwise returns the summary whose count
is the number of successful records and whose skip count is the number of
failed ones, the two adding up to the full catalog size. -/
theorem claim_C5_build_fault_isolation (f : Frame)
    (oracle : Product → Option (List ℝ)) (st : Store) :
    ((buildIndexFromCsv (some f) oracle st).1 = .error .emptyIndex
      ↔ (loadCsvFiltered f).all (fun r => (oracle r).isNone) = true)
    ∧ (∀ s, (buildIndexFromCsv (some f) oracle st).1 = .ok s →
        s.count = ((loadCsvFiltered f).filter (fun r => (oracle r).isSome)).length
        ∧ s.skipped = ((loadCsvFiltered f).filter (fun r => (oracle r).isNone)).length
        ∧ s.count + s.skipped = (loadCsvFiltered f).length)
    ∧ ((loadCsvFiltered f).all (fun r => (oracle r).isNone) = false →
        ∃ s, (buildIndexFromCsv (some f) oracle st).1 = .ok s) := by
  have hspec := buildPass_spec oracle (loadCsvFiltered f)
  have hempty : (buildPass oracle (loadCsvFiltered f)).1.isEmpty = true
      ↔ (loadCsvFiltered f).all (fun r => (oracle r).isNone) = true := by
    rw [List.isEmpty_iff, hspec.1, List.filterMap_eq_nil_iff, List.all_eq_true]
    constructor
    · intro h r hr
      rw [Option.isNone_iff_eq_none]
      exact h r hr
    · intro h r hr
      rw [← Option.isNone_iff_eq_none]
      exact h r hr
  constructor
  · rw [buildIndexFromCsv]
    by_cases hz : (buildPass oracle (loadCsvFiltered f)).1.isEmpty = true
    · simp only [hz, if_true]
      simpa using hempty.mp hz
    · simp only [hz, if_false]
      constructor
      · intro h
        exact absurd h (by simp)
      · intro h
        exact absurd (hempty.mpr h) hz
  constructor
  · intro s hs
    rw [buildIndexFromCsv] at hs
    by_cases hz : (buildPass oracle (loadCsvFiltered f)).1.isEmpty = true
    · simp [hz] at hs
    · simp only [hz, if_false] at hs
      have hs' : s = ⟨(buildPass oracle (loadCsvFiltered f)).2.1.length,
          (buildPass oracle (loadCsvFiltered f)).2.2⟩ := by
        cases hs
        rfl
      subst hs'
      refine ⟨by rw [hspec.2.1]; simp, by rw [hspec.2.2.1], ?_⟩
      rw [hspec.2.1, hspec.2.2.1]
      simp only [List.length_map]
      exact length_filter_isSome_add_isNone oracle (loadCsvFiltered f)
  · intro h
    rw [buildIndexFromCsv]
    have hz : ¬ (buildPass oracle (loadCsvFiltered f)).1.isEmpty = true := by
      intro hz
      rw [hempty.mp hz] at h
      cases h
    simp only [hz, if_false]
    exact ⟨_, rfl⟩

/-- Witness for C5: a two-record catalog where record "a" succeeds and
record "b" fails builds with count 1 and skipped 1. -/
theorem claim_C5_build_fault_isolation_witness :
    (buildIndexFromCsv
        (some ⟨[⟨"a.png".data, "a".data, []⟩, ⟨"b.png".data, "b".data, []⟩],
          true, false⟩)
        (fun r => if r.id = ['a'] then some [1] else none) emptyStore).1
      = .ok ⟨1, 1⟩
    ∧ (1 : Nat) = 1 ∧ (1 : Nat) + 1 = 2 := by
  have h := (claim_C5_build_fault_isolation
    ⟨[⟨"a.png".data, "a".data, []⟩, ⟨"b.png".data, "b".data, []⟩], true, false⟩
    (fun r => if r.id = ['a'] then some [1] else none) emptyStore).2.1
    ⟨1, 1⟩ (by decide)
  exact ⟨by decide, h.1.trans (by decide), by decide⟩

/-- C9: a build that fails — unreadable or schema-invalid catalog, or
zero vectors produced — leaves the whole store (persisted artifacts and
the published `df`/`embeddings`/`ids` globals) unchanged; the new triple
is installed, via the publish sequence, only after the whole pass has
succeeded, and then it consists exactly of the new matrix, ids and
table. -/
theorem claim_C9_failed_build_preserves_view (csv : Option Frame)
    (oracle : Product → Option (List ℝ)) (st : Store) :
    (∀ e, (buildIndexFromCsv csv oracle st).1 = .error e →
        (buildIndexFromCsv csv oracle st).2 = st)
    ∧ (∀ s f, csv = some f → (buildIndexFromCsv csv oracle st).1 = .ok s →
        (buildIndexFromCsv csv oracle st).2
          = { persistedMatrix := some (buildPass oracle (loadCsvFiltered f)).1,
              persistedIds := some (buildPass oracle (loadCsvFiltered f)).2.1,
              df := some (loadCsvFiltered f),
              embeddings := some (buildPass oracle (loadCsvFiltered f)).1,
              ids := (buildPass oracle (loadCsvFiltered f)).2.1 }) := by
  constructor
  · intro e he
    cases csv with
    | none => rfl
    | some f =>
      rw [buildIndexFromCsv] at he ⊢
      by_cases hz : (buildPass oracle (loadCsvFiltered f)).1.isEmpty = true
      · simp [hz]
      · simp [hz] at he
  · intro s f hf hok
    subst hf
    rw [buildIndexFromCsv] at hok ⊢
    by_cases hz : (buildPass oracle (loadCsvFiltered f)).1.isEmpty = true
    · simp [hz] at hok
    · simp only [hz, if_false]
      rfl

/-- Witness for C9: a catalog whose only record fails to embed aborts
with the empty-index error and leaves a fully-published store exactly as
it was. -/
theorem claim_C9_failed_build_preserves_view_witness :
    (buildIndexFromCsv (some ⟨[⟨"a.png".data, "a".data, []⟩], true, false⟩)
        (fun _ => none) oldStoreEx).1 = .error .emptyIndex
    ∧ (buildIndexFromCsv (some ⟨[⟨"a.png".data, "a".data, []⟩], true, false⟩)
        (fun _ => none) oldStoreEx).2 = oldStoreEx := by
  refine ⟨by decide, ?_⟩
  exact (claim_C9_failed_build_preserves_view
    (some ⟨[⟨"a.png".data, "a".data, []⟩], true, false⟩)
    (fun _ => none) oldStoreEx).1 .emptyIndex (by decide)

/-- Counterexample for C2 as stated: the publish sequence of lines
326-331 runs as five separate state changes, and the state reached after
`embeddings = embeddings_arr` but before `ids = [...]` (index 4 of the
trace) carries the new product table and matrix together with the old
ids — it differs from the old state (in `df`) and from the new state (in
`ids`), so a concurrent reader can observe a mixture, refuting the
single-atomic-replacement claim. -/
theorem claim_C2_counterexample :
    ((publishTrace oldStoreEx [[2]] [['b']] [⟨['b'], ['v']⟩]).getD 4 oldStoreEx).df
        ≠ oldStoreEx.df
    ∧ ((publishTrace oldStoreEx [[2]] [['b']] [⟨['b'], ['v']⟩]).getD 4 oldStoreEx).ids
        ≠ ((publishTrace oldStoreEx [[2]] [['b']] [⟨['b'], ['v']⟩]).getLastD
            oldStoreEx).ids := by
  constructor
  · intro h
    simp [publishTrace, oldStoreEx] at h
  · intro h
    simp [publishTrace, oldStoreEx] at h

/-- C2 amended: a successful build installs the new triple only after the
whole pass, through five consecutive single-field replacements (persisted
matrix, persisted ids, `df`, `embeddings`, `ids`) in that order; the
final state is exactly the fully-new store, but the intermediate states
are the listed prefix mixtures of new and old fields, so the replacement
is not one atomic step. -/
theorem claim_C2_amended_publish (st : Store) (m : List (List ℝ))
    (idsN : List Str) (dfN : List Product) :
    publishTrace st m idsN dfN
      = [st,
         { st with persistedMatrix := some m },
         { st with persistedMatrix := some m, persistedIds := some idsN },
         { st with persistedMatrix := some m, persistedIds := some idsN,
                   df := some dfN },
         { st with persistedMatrix := some m, persistedIds := some idsN,
                   df := some dfN, embeddings := some m },
         ⟨some m, some idsN, some dfN, some m, idsN⟩]
    ∧ (publishTrace st m idsN dfN).getLastD st
        = ⟨some m, some idsN, some dfN, some m, idsN⟩ :=
  ⟨rfl, rfl⟩

/-- Counterexample for C4 as stated: artifacts with a two-row matrix and
a single id load successfully and are published as-is; the load performs
no row-count validation and raises nothing. -/
theorem claim_C4_counterexample :
    loadIndex (some ([[1], [0]], [['a']])) emptyStore
      = some { emptyStore with embeddings := some [[1], [0]], ids := [['a']] }
    ∧ ([[1], [0]] : List (List ℝ)).length ≠ [(['a'] : Str)].length :=
  ⟨rfl, by decide⟩

/-- C4 amended: the startup load performs no consistency validation:
any pair of artifacts that exists and parses is published exactly as
read, even when the matrix row count differs from the id count; a
read/parse failure makes the loader fall through to a rebuild instead of
raising a distinct corruption error. -/
theorem claim_C4_amended_load_no_validation (m : List (List ℝ))
    (idsL : List Str) (st : Store) (_hmis : m.length ≠ idsL.length) :
    loadIndex (some (m, idsL)) st
      = some { st with embeddings := some m, ids := idsL }
    ∧ loadIndex none st = none :=
  ⟨rfl, rfl⟩

/-- Witness for C4 amended: a three-row matrix with one id is published
as read. -/
theorem claim_C4_amended_load_no_validation_witness :
    loadIndex (some ([[1], [2], [3]], [['c']])) emptyStore
      = some { emptyStore with
               embeddings := some [[1], [2], [3]], ids := [['c']] }
    ∧ loadIndex none emptyStore = none :=
  claim_C4_amended_load_no_validation [[1], [2], [3]] [['c']] emptyStore
    (by decide)

/-- A sum of squares is non-negative. -/
theorem sum_sq_nonneg (v : List ℝ) : 0 ≤ (v.map (fun x => x ^ 2)).sum := by
  apply List.sum_nonneg
  intro x hx
  rw [List.mem_map] at hx
  obtain ⟨y, _, rfl⟩ := hx
  positivity

/-- `np.linalg.norm` is non-negative. -/
theorem l2norm_nonneg (v : List ℝ) : 0 ≤ l2norm v := Real.sqrt_nonneg _

/-- The epsilon of `_img_to_vec` is positive. -/
theorem eps_pos : 0 < eps := by unfold eps; norm_num

/-- Dividing every entry by `c` divides every squared entry by `c ^ 2`,
summed. -/
theorem sum_map_div_sq (v : List ℝ) (c : ℝ) :
    (v.map (fun x => (x / c) ^ 2)).sum = (v.map (fun x => x ^ 2)).sum / c ^ 2 := by
  induction v with
  | nil => simp
  | cons x rest ih =>
      simp only [div_pow] at ih
      simp [div_pow, ih, add_div]

/-- Scaling a vector by `1 / c` for positive `c` scales its norm by
`1 / c`. -/
theorem l2norm_map_div (v : List ℝ) (c : ℝ) (hc : 0 < c) :
    l2norm (v.map (fun x => x / c)) = l2norm v / c := by
  unfold l2norm
  rw [List.map_map]
  have hcomp : ((fun x => x ^ 2) ∘ fun x => x / c) = fun x => (x / c) ^ 2 := rfl
  rw [hcomp, sum_map_div_sq, Real.sqrt_div (sum_sq_nonneg v), Real.sqrt_sq hc.le]

/-- The norm of the normalized vector is `‖v‖ / (‖v‖ + ε)`. -/
theorem l2norm_imgToVec (raw : List ℝ) :
    l2norm (imgToVec raw) = l2norm raw / (l2norm raw + eps) := by
  have hc : 0 < l2norm raw + eps := by
    have h1 := l2norm_nonneg raw
    have h2 := eps_pos
    linarith
  unfold imgToVec
  exact l2norm_map_div raw _ hc

/-- For a raw feature of norm at least 1, the stored normalized vector
has norm within ε of 1, from below. -/
theorem imgToVec_norm_close (raw : List ℝ) (h : 1 ≤ l2norm raw) :
    |l2norm (imgToVec raw) - 1| ≤ eps ∧ l2norm (imgToVec raw) ≤ 1 := by
  have he := eps_pos
  have hc : 0 < l2norm raw + eps := by linarith
  rw [l2norm_imgToVec]
  constructor
  · have h1 : l2norm raw / (l2norm raw + eps) - 1 = -(eps / (l2norm raw + eps)) := by
      field_simp
    rw [h1, abs_neg, abs_of_nonneg (by positivity)]
    rw [div_le_iff₀ hc]
    nlinarith
  · rw [div_le_one hc]
    linarith

/-- On build success, the resulting store is the published new triple. -/
theorem buildIndexFromCsv_ok_state (f : Frame)
    (oracle : Product → Option (List ℝ)) (st : Store) (s : BuildSummary)
    (hok : (buildIndexFromCsv (some f) oracle st).1 = .ok s) :
    (buildIndexFromCsv (some f) oracle st).2
      = { persistedMatrix := some (buildPass oracle (loadCsvFiltered f)).1,
          persistedIds := some (buildPass oracle (loadCsvFiltered f)).2.1,
          df := some (loadCsvFiltered f),
          embeddings := some (buildPass oracle (loadCsvFiltered f)).1,
          ids := (buildPass oracle (loadCsvFiltered f)).2.1 } := by
  rw [buildIndexFromCsv] at hok ⊢
  by_cases hz : (buildPass oracle (loadCsvFiltered f)).1.isEmpty = true
  · simp [hz] at hok
  · simp only [hz, if_false]
    rfl

/-- Counterexample for C8 as stated, in two halves.  Load half: loading
artifacts with three matrix rows and one id "succeeds" (the load
validates nothing) and publishes a view in which the id list length
differs from the matrix row count, so the invariant does not hold after
every successful load.  Norm half: a build whose only record yields the
zero raw feature succeeds and stores `imgToVec [0] = [0]`, a vector of
norm 0 — not within ε of 1 — so "every stored vector has norm within ε
of 1" also fails unconditionally and must be qualified by a lower bound
on the raw feature's norm. -/
theorem claim_C8_counterexample :
    loadIndex (some ([[1], [0], [1]], [['b']])) emptyStore
      = some { emptyStore with
               embeddings := some [[1], [0], [1]], ids := [['b']] }
    ∧ ([[1], [0], [1]] : List (List ℝ)).length ≠ [(['b'] : Str)].length
    ∧ (buildIndexFromCsv (some ⟨[⟨"a.png".data, "a".data, []⟩], true, false⟩)
        (fun _ => (some [(0 : ℝ)]).map imgToVec) emptyStore).1 = .ok ⟨1, 0⟩
    ∧ (buildIndexFromCsv (some ⟨[⟨"a.png".data, "a".data, []⟩], true, false⟩)
        (fun _ => (some [(0 : ℝ)]).map imgToVec) emptyStore).2.embeddings
      = some [imgToVec [0]]
    ∧ ¬ (|l2norm (imgToVec [0]) - 1| ≤ eps) := by
  refine ⟨rfl, by decide, by decide, rfl, ?_⟩
  have h1 : imgToVec [0] = [0] := by simp [imgToVec]
  have h2 : l2norm ([0] : List ℝ) = 0 := by simp [l2norm]
  rw [h1, h2, zero_sub, abs_neg, abs_one]
  unfold eps
  norm_num

/-- C8 amended: after every successful *build*, the published and
persisted matrix and id list come from the same success-filtered record
sequence, so `len(ids) == matrix.row_count` with `ids[i]` corresponding
to row `i`; every stored vector is `v / (‖v‖ + ε)` of its raw feature,
and has norm within ε of 1 (from below) whenever the raw feature's norm
is at least 1.  After a *load*, the view is exactly the artifact
contents, so the invariant holds only when the artifacts already satisfy
it (which those persisted by a build do). -/
theorem claim_C8_amended_invariant (f : Frame)
    (clipFeatures : Product → Option (List ℝ)) (st : Store) (s : BuildSummary)
    (hok : (buildIndexFromCsv (some f)
        (fun r => (clipFeatures r).map imgToVec) st).1 = .ok s) :
    (buildIndexFromCsv (some f)
        (fun r => (clipFeatures r).map imgToVec) st).2.embeddings
      = some ((loadCsvFiltered f).filterMap
          (fun r => (clipFeatures r).map imgToVec))
    ∧ (buildIndexFromCsv (some f)
        (fun r => (clipFeatures r).map imgToVec) st).2.ids
      = ((loadCsvFiltered f).filter
          (fun r => ((clipFeatures r).map imgToVec).isSome)).map (fun r => r.id)
    ∧ (buildIndexFromCsv (some f)
        (fun r => (clipFeatures r).map imgToVec) st).2.persistedMatrix
      = some ((loadCsvFiltered f).filterMap
          (fun r => (clipFeatures r).map imgToVec))
    ∧ (buildIndexFromCsv (some f)
        (fun r => (clipFeatures r).map imgToVec) st).2.persistedIds
      = some (((loadCsvFiltered f).filter
          (fun r => ((clipFeatures r).map imgToVec).isSome)).map (fun r => r.id))
    ∧ ((loadCsvFiltered f).filterMap
          (fun r => (clipFeatures r).map imgToVec)).length
      = (((loadCsvFiltered f).filter
          (fun r => ((clipFeatures r).map imgToVec).isSome)).map
            (fun r => r.id)).length
    ∧ (∀ v ∈ (loadCsvFiltered f).filterMap
          (fun r => (clipFeatures r).map imgToVec), ∃ raw, v = imgToVec raw)
    ∧ (∀ raw : List ℝ, 1 ≤ l2norm raw →
        |l2norm (imgToVec raw) - 1| ≤ eps ∧ l2norm (imgToVec raw) ≤ 1) := by
  have hstate := buildIndexFromCsv_ok_state f
    (fun r => (clipFeatures r).map imgToVec) st s hok
  have hspec := buildPass_spec (fun r => (clipFeatures r).map imgToVec)
    (loadCsvFiltered f)
  refine ⟨?_, ?_, ?_, ?_, ?_, ?_, ?_⟩
  · rw [hstate]
    simpa using hspec.1
  · rw [hstate]
    simpa using hspec.2.1
  · rw [hstate]
    simpa using hspec.1
  · rw [hstate]
    simpa using hspec.2.1
  · rw [← hspec.1, ← hspec.2.1]
    exact hspec.2.2.2
  · intro v hv
    rw [List.mem_filterMap] at hv
    obtain ⟨r, _, hr⟩ := hv
    obtain ⟨raw, _, hraw⟩ := Option.map_eq_some'.mp hr
    exact ⟨raw, hraw.symm⟩
  · intro raw h
    exact imgToVec_norm_close raw h

/-- Witness for C8 amended: building a two-record catalog where record
"a" embeds the raw feature [1] publishes the single id "a", and the
normalized vector of a raw feature of norm 1 has norm within ε of 1. -/
theorem claim_C8_amended_invariant_witness :
    (1 : ℝ) ≤ l2norm [1]
    ∧ |l2norm (imgToVec [1]) - 1| ≤ eps
    ∧ (buildIndexFromCsv
        (some ⟨[⟨"a.png".data, "a".data, []⟩, ⟨"b.png".data, "b".data, []⟩],
          true, false⟩)
        (fun r => ((if r.id = ['a'] then some [(1:ℝ)] else none)).map imgToVec)
        emptyStore).2.ids = [['a']] := by
  have hn : (1 : ℝ) ≤ l2norm [1] := by simp [l2norm, Real.sqrt_one]
  have h := claim_C8_amended_invariant
    ⟨[⟨"a.png".data, "a".data, []⟩, ⟨"b.png".data, "b".data, []⟩], true, false⟩
    (fun r => if r.id = ['a'] then some [(1:ℝ)] else none) emptyStore ⟨1, 1⟩
    (by decide)
  refine ⟨hn, (h.2.2.2.2.2.2 [1] hn).1, ?_⟩
  rw [h.2.1]
  decide

/-- A profile loop in which every profile up to the winner fails returns
the winner's body and records exactly the prefix of tried profiles. -/
theorem runProfiles_win (oracle : Nat → Nat → FetchResp) (a p₀ : Nat)
    (ps₂ : List Nat) (body : List Nat) :
    ∀ (ps₁ : List Nat) (le : Option Str),
      (∀ p ∈ ps₁, ∃ e, tryProfile (oracle a p) = .error e) →
      tryProfile (oracle a p₀) = .ok body →
      (runProfiles oracle a (ps₁ ++ p₀ :: ps₂) le).1 = some body
      ∧ (runProfiles oracle a (ps₁ ++ p₀ :: ps₂) le).2.2
          = (ps₁ ++ [p₀]).map (fun p => (a, p)) := by
  intro ps₁
  induction ps₁ with
  | nil =>
    intro le _ hwin
    rw [List.nil_append, runProfiles, hwin]
    exact ⟨rfl, rfl⟩
  | cons q qs ih =>
    intro le hfail hwin
    obtain ⟨e, he⟩ := hfail q (List.mem_cons_self q qs)
    rw [List.cons_append, runProfiles, he]
    have h := ih (some e) (fun p hp => hfail p (List.mem_cons_of_mem q hp)) hwin
    exact ⟨h.1, by simp only [List.cons_append, List.map_cons]; rw [h.2]⟩

/-- A profile loop in which every profile fails wins nothing, records
every profile as tried, and leaves `last_exc` as the error of the last
profile (threaded by `foldl`). -/
theorem runProfiles_allFail (oracle : Nat → Nat → FetchResp)
    (errF : Nat → Nat → Str)
    (herr : ∀ a p, tryProfile (oracle a p) = .error (errF a p)) (a : Nat) :
    ∀ (ps : List Nat) (le : Option Str),
      (runProfiles oracle a ps le).1 = none
      ∧ (runProfiles oracle a ps le).2.2 = ps.map (fun p => (a, p))
      ∧ (runProfiles oracle a ps le).2.1
          = ps.foldl (fun _ p => some (errF a p)) le := by
  intro ps
  induction ps with
  | nil => intro le; exact ⟨rfl, rfl, rfl⟩
  | cons q qs ih =>
    intro le
    rw [runProfiles, herr a q]
    have h := ih (some (errF a q))
    exact ⟨h.1, by simp only [List.map_cons]; rw [h.2.1],
      by simp only [List.foldl_cons]; exact h.2.2⟩

/-- An attempt loop whose failing prefix is followed by a winning
attempt returns the winner's body, records the tried pairs of all failed
attempts followed by the winner's prefix, and sleeps once per fully
failed attempt with exponential backoff. -/
theorem runAttempts_win (oracle : Nat → Nat → FetchResp)
    (a₀ p₀ : Nat) (as₂ ps₁ ps₂ : List Nat) (body : List Nat)
    (hprof : headerProfiles = ps₁ ++ p₀ :: ps₂)
    (hfail2 : ∀ p ∈ ps₁, ∃ e, tryProfile (oracle a₀ p) = .error e)
    (hwin : tryProfile (oracle a₀ p₀) = .ok body) :
    ∀ (as₁ : List Nat) (le : Option Str),
      (∀ a ∈ as₁, ∀ p ∈ headerProfiles, ∃ e, tryProfile (oracle a p) = .error e) →
      (runAttempts oracle (as₁ ++ a₀ :: as₂) le).1 = some body
      ∧ (runAttempts oracle (as₁ ++ a₀ :: as₂) le).2.2.1
          = as₁.flatMap (fun a => headerProfiles.map (fun p => (a, p)))
              ++ (ps₁ ++ [p₀]).map (fun p => (a₀, p))
      ∧ (runAttempts oracle (as₁ ++ a₀ :: as₂) le).2.2.2
          = as₁.map (fun a => baseDelay * 2 ^ (a - 1)) := by
  intro as₁
  induction as₁ with
  | nil =>
    intro le _
    rw [List.nil_append, runAttempts]
    have h := runProfiles_win oracle a₀ p₀ ps₂ body ps₁ le hfail2 hwin
    rw [hprof]
    rw [h.1]
    exact ⟨rfl, by simpa using h.2, rfl⟩
  | cons b bs ih =>
    intro le hfail1
    rw [List.cons_append, runAttempts]
    have hbfail : ∀ p ∈ headerProfiles, ∃ e, tryProfile (oracle b p) = .error e :=
      hfail1 b (List.mem_cons_self b bs)
    obtain ⟨e0, he0⟩ := hbfail 0 (by rw [headerProfiles]; simp)
    obtain ⟨e1, he1⟩ := hbfail 1 (by rw [headerProfiles]; simp)
    obtain ⟨e2, he2⟩ := hbfail 2 (by rw [headerProfiles]; simp)
    have hb : runProfiles oracle b headerProfiles le
        = (none, some e2, [(b, 0), (b, 1), (b, 2)]) := by
      rw [headerProfiles]
      simp only [runProfiles, he0, he1, he2]
    rw [hb]
    dsimp only
    have h := ih (some e2) (fun a ha => hfail1 a (List.mem_cons_of_mem b ha))
    refine ⟨h.1, ?_, ?_⟩
    · rw [List.flatMap_cons, List.append_assoc]
      rw [show headerProfiles.map (fun p => (b, p)) = [(b, 0), (b, 1), (b, 2)]
        from rfl]
      rw [h.2.1]
    · rw [List.map_cons, h.2.2]

/-- An attempt loop in which every profile of every attempt fails wins
nothing, tries every pair in order, sleeps once per attempt with
exponential backoff, and keeps as `last_exc` the error of the last
profile of the last attempt. -/
theorem runAttempts_allFail (oracle : Nat → Nat → FetchResp)
    (errF : Nat → Nat → Str)
    (herr : ∀ a p, tryProfile (oracle a p) = .error (errF a p)) :
    ∀ (as : List Nat) (le : Option Str),
      (runAttempts oracle as le).1 = none
      ∧ (runAttempts oracle as le).2.2.1
          = as.flatMap (fun a => headerProfiles.map (fun p => (a, p)))
      ∧ (runAttempts oracle as le).2.2.2
          = as.map (fun a => baseDelay * 2 ^ (a - 1))
      ∧ (runAttempts oracle as le).2.1
          = as.foldl
              (fun acc a => headerProfiles.foldl (fun _ p => some (errF a p)) acc)
              le := by
  intro as
  induction as with
  | nil => intro le; exact ⟨rfl, rfl, rfl, rfl⟩
  | cons b bs ih =>
    intro le
    rw [runAttempts]
    have hb : runProfiles oracle b headerProfiles le
        = (none, some (errF b 2), [(b, 0), (b, 1), (b, 2)]) := by
      rw [headerProfiles]
      simp only [runProfiles, herr]
    rw [hb]
    dsimp only
    have h := ih (some (errF b 2))
    refine ⟨h.1, ?_, ?_, ?_⟩
    · rw [List.flatMap_cons,
        show headerProfiles.map (fun p => (b, p)) = [(b, 0), (b, 1), (b, 2)]
          from rfl, h.2.1]
    · rw [List.map_cons, h.2.2.1]
    · rw [List.foldl_cons,
        show headerProfiles.foldl (fun _ p => some (errF b p)) le
          = some (errF b 2) from rfl]
      exact h.2.2.2

/-- C7: for every remote fetch, the attempts 1..MAX_ATTEMPTS try every
header profile in order and the first profile whose request succeeds with
a non-empty body wins immediately, with exactly the preceding pairs
tried and one backoff sleep of `base_delay * 2^(attempt-1)` per fully
failed attempt (first conjunct); when every profile of every attempt
fails, the independent fallback transport is tried after the three
sleeps, its body winning if it succeeds (second conjunct); when the
fallback also fails, the propagated error is the most recent meaningful
one — the error of the last profile of the last attempt, which the code
keeps in `last_exc` and prefers to the fallback's own error (third
conjunct). -/
theorem claim_C7_fetch_retry (oracle : Nat → Nat → FetchResp)
    (fallback : FetchResp) :
    (∀ (as₁ : List Nat) (a₀ : Nat) (as₂ ps₁ : List Nat) (p₀ : Nat)
        (ps₂ body : List Nat),
        List.range' 1 maxAttempts = as₁ ++ a₀ :: as₂ →
        headerProfiles = ps₁ ++ p₀ :: ps₂ →
        (∀ a ∈ as₁, ∀ p ∈ headerProfiles, ∃ e, tryProfile (oracle a p) = .error e) →
        (∀ p ∈ ps₁, ∃ e, tryProfile (oracle a₀ p) = .error e) →
        tryProfile (oracle a₀ p₀) = .ok body →
        fetchImageBytes oracle fallback
          = ⟨.ok body,
             as₁.flatMap (fun a => headerProfiles.map (fun p => (a, p)))
               ++ (ps₁ ++ [p₀]).map (fun p => (a₀, p)),
             as₁.map (fun a => baseDelay * 2 ^ (a - 1))⟩)
    ∧ (∀ (errF : Nat → Nat → Str) (body : List Nat),
        (∀ a p, tryProfile (oracle a p) = .error (errF a p)) →
        tryProfile fallback = .ok body →
        fetchImageBytes oracle fallback
          = ⟨.ok body,
             [(1, 0), (1, 1), (1, 2), (2, 0), (2, 1), (2, 2),
              (3, 0), (3, 1), (3, 2)],
             [baseDelay * 2 ^ 0, baseDelay * 2 ^ 1, baseDelay * 2 ^ 2]⟩)
    ∧ (∀ (errF : Nat → Nat → Str) (efb : Str),
        (∀ a p, tryProfile (oracle a p) = .error (errF a p)) →
        tryProfile fallback = .error efb →
        fetchImageBytes oracle fallback
          = ⟨.error (errF 3 2),
             [(1, 0), (1, 1), (1, 2), (2, 0), (2, 1), (2, 2),
              (3, 0), (3, 1), (3, 2)],
             [baseDelay * 2 ^ 0, baseDelay * 2 ^ 1, baseDelay * 2 ^ 2]⟩) := by
  refine ⟨?_, ?_, ?_⟩
  · intro as₁ a₀ as₂ ps₁ p₀ ps₂ body hsplit hprof hfail1 hfail2 hwin
    have h := runAttempts_win oracle a₀ p₀ as₂ ps₁ ps₂ body hprof hfail2 hwin
      as₁ none hfail1
    rw [fetchImageBytes, hsplit]
    rw [h.1]
    dsimp only
    rw [h.2.1, h.2.2]
  · intro errF body herr hfb
    have h := runAttempts_allFail oracle errF herr
      (List.range' 1 maxAttempts) none
    rw [fetchImageBytes]
    rw [h.1]
    dsimp only
    rw [hfb]
    dsimp only
    rw [h.2.1, h.2.2.1]
    rfl
  · intro errF efb herr hfb
    have h := runAttempts_allFail oracle errF herr
      (List.range' 1 maxAttempts) none
    rw [fetchImageBytes]
    rw [h.1]
    dsimp only
    rw [hfb]
    dsimp only
    rw [h.2.1, h.2.2.1, h.2.2.2]
    rfl

/-- Witness for C7: a source whose first header profile yields a failure
status and whose second profile succeeds within attempt 1 resolves with
the second profile's body, having tried exactly profiles (1,0) and (1,1)
and slept zero times. -/
theorem claim_C7_fetch_retry_witness :
    fetchImageBytes
        (fun a p => if a = 1 ∧ p = 1 then .ok [7, 7]
          else .error "403 Client Error".data)
        (.error "urllib fallback failed".data)
      = ⟨.ok [7, 7], [(1, 0), (1, 1)], []⟩ := by
  have h := (claim_C7_fetch_retry
      (fun a p => if a = 1 ∧ p = 1 then .ok [7, 7]
        else .error "403 Client Error".data)
      (.error "urllib fallback failed".data)).1
    [] 1 [2, 3] [0] 1 [2] [7, 7] (by decide) (by decide) (by simp)
    (by
      intro p hp
      have hp0 : p = 0 := by simpa using hp
      subst hp0
      exact ⟨"403 Client Error".data, rfl⟩)
    (by decide)
  exact h.trans (by decide)

end VPM
